import Mathlib

/-!
Verification of the rolling z-score outlier detector
(`src/anomaly_detection/z_score.py` and `src/energy_data/data.py`).

The Python program is shallowly embedded over exact rational arithmetic:
numeric sample values become `ℚ`, the two `deque`s become `List ℚ`
(with `append` at the tail and `popleft` at the head), and the Python
exceptions raised by the code (`ValueError`, `ZeroDivisionError`,
`IndexError`) become an explicit error type carried in `Except`.
-/

/-- The Python exceptions that the embedded code can raise.
`valueError` is the `ValueError("Rolling window must be greater than 1.")`
raised by `process_z_score_outliers` and the
`ValueError("Timestamp increment must be greater than 0.")` raised by
`get_historical_energy_data`; `mathDomainValueError` is the
`ValueError: math domain error` raised by `math.sqrt` on a negative
argument; `zeroDivisionError` is `ZeroDivisionError: float division by zero`;
`indexError` is the `IndexError` raised by `deque.popleft` on an empty deque. -/
inductive PyErr
  | valueError
  | mathDomainValueError
  | zeroDivisionError
  | indexError
deriving DecidableEq

/-- The value carried by a sample, as seen by the engine's validity check
`not isinstance(value, (int, float)) or value < 0`.
`num x` is an `int` or `float` whose exact numeric value is the rational `x`;
`other` is any object that is not an instance of `int` or `float`. -/
inductive PyVal
  | num (x : ℚ)
  | other
deriving DecidableEq

/-- Whether the engine's sanity check admits the sample value: the source
skips a sample exactly when `not isinstance(value, (int, float)) or value < 0`. -/
def accept (v : PyVal) : Bool :=
  match v with
  | PyVal.num x => !(decide (x < 0))
  | PyVal.other => false

/-- The mutable state of `process_z_score_outliers`: the two running
accumulators and the two deques of window values. -/
structure EngineState where
  rolling_sum : ℚ
  rolling_squared_sum : ℚ
  window_values : List ℚ
  window_squared_values : List ℚ
deriving DecidableEq

/-- The state before any historical sample is consumed:
`rolling_sum = 0`, `rolling_squared_sum = 0`, and both deques empty. -/
def stateInit : EngineState := ⟨0, 0, [], []⟩

/-- The admission step shared by the bootstrap loop and the streaming loop:
`rolling_sum += value; window_values.append(value);
rolling_squared_sum += value ** 2; window_squared_values.append(value ** 2)`. -/
def pushValue (s : EngineState) (value : ℚ) : EngineState :=
  { rolling_sum := s.rolling_sum + value
    rolling_squared_sum := s.rolling_squared_sum + value ^ 2
    window_values := s.window_values ++ [value]
    window_squared_values := s.window_squared_values ++ [value ^ 2] }

/-- One iteration of the bootstrap loop `for _, value in historical_energy_data`:
an invalid sample is discarded (`continue`), a valid one is admitted. -/
def bootstrapStep (s : EngineState) (sample : ℚ × PyVal) : EngineState :=
  match sample.2 with
  | PyVal.num x => if x < 0 then s else pushValue s x
  | PyVal.other => s

/-- The whole bootstrap phase: fold the bootstrap loop over the list returned
by the historical lookup, starting from the zeroed state. -/
def bootstrap (hist : List (ℚ × PyVal)) : EngineState :=
  hist.foldl bootstrapStep stateInit

/-- The eviction step
`old_value = window_values.popleft(); rolling_sum -= old_value;
old_squared_value = window_squared_values.popleft();
rolling_squared_sum -= old_squared_value`.
`deque.popleft` raises `IndexError` on an empty deque. -/
def evict (s : EngineState) : Except PyErr EngineState :=
  match s.window_values, s.window_squared_values with
  | old_value :: vs, old_squared_value :: ws =>
      Except.ok { rolling_sum := s.rolling_sum - old_value
                  rolling_squared_sum := s.rolling_squared_sum - old_squared_value
                  window_values := vs
                  window_squared_values := ws }
  | _, _ => Except.error PyErr.indexError

/-- The statistic `rolling_mean = rolling_sum / window`. -/
def rollingMean (window : ℤ) (s : EngineState) : ℚ :=
  s.rolling_sum / (window : ℚ)

/-- The argument of `math.sqrt` in the source:
`(window * rolling_mean ** 2 - 2 * rolling_mean * rolling_sum + rolling_squared_sum) / (window - 1)`. -/
def rollingVariance (window : ℤ) (s : EngineState) : ℚ :=
  ((window : ℚ) * (rollingMean window s) ^ 2
      - 2 * rollingMean window s * s.rolling_sum + s.rolling_squared_sum)
    / ((window : ℚ) - 1)

/-- Decidable rational characterization of the source's outlier test
`abs((value - rolling_mean) / rolling_std) > threshold` where
`rolling_std = math.sqrt(rolling_variance)` and `rolling_variance > 0`:
the test holds iff the threshold is negative or
`(value - rolling_mean)^2 > threshold^2 * rolling_variance`.
The equivalence with the real-valued square-root formula is proved in
`isOutlier_iff_sqrt_test` below. -/
def isOutlier (threshold value rolling_mean rolling_variance : ℚ) : Bool :=
  decide (threshold < 0 ∨ threshold ^ 2 * rolling_variance < (value - rolling_mean) ^ 2)

/-- One iteration of the streaming loop `async for timestamp, value in ...`:
validate, admit, compute the statistics from the post-push accumulators,
decide, emit, then evict the oldest value.  Returns the state after the
iteration together with the emitted decision, if any; an uncaught Python
exception aborts the generator.  The branch on the sign of
`rollingVariance` mirrors the float code exactly: `math.sqrt` raises
`ValueError` on a negative argument, `math.sqrt 0 = 0` makes the division
raise `ZeroDivisionError`, and for a positive argument the comparison is
the decidable characterization `isOutlier`. -/
def streamStep (window : ℤ) (threshold : ℚ) (s : EngineState) (sample : ℚ × PyVal) :
    Except PyErr (EngineState × Option (ℚ × ℚ × Bool)) :=
  match sample with
  | (_, PyVal.other) => Except.ok (s, none)
  | (t, PyVal.num x) =>
    if x < 0 then Except.ok (s, none)
    else
      let s' := pushValue s x
      let var := rollingVariance window s'
      if var < 0 then Except.error PyErr.mathDomainValueError
      else if var = 0 then Except.error PyErr.zeroDivisionError
      else
        match evict s' with
        | Except.error e => Except.error e
        | Except.ok s'' =>
            Except.ok (s'', some (t, x, isOutlier threshold x (rollingMean window s') var))

/-- The streaming loop over a finite prefix of the live stream: the emitted
decisions in order, together with either the state left after the prefix or
the first uncaught exception (decisions yielded before the exception are kept,
as they have already been consumed by the caller of the generator). -/
def processStream (window : ℤ) (threshold : ℚ) :
    EngineState → List (ℚ × PyVal) → List (ℚ × ℚ × Bool) × Except PyErr EngineState
  | s, [] => ([], Except.ok s)
  | s, sample :: rest =>
    match streamStep window threshold s sample with
    | Except.error e => ([], Except.error e)
    | Except.ok (s', none) => processStream window threshold s' rest
    | Except.ok (s', some out) =>
        let r := processStream window threshold s' rest
        (out :: r.1, r.2)

/-- The whole of `process_z_score_outliers`, run against a historical lookup
`getHistoricalData` and a finite prefix `liveStream` of the live stream.
`now` is the value of `time.time()` at the start of the call; `stream_delay`
only paces the collaborator and is dropped.  The `window <= 1` check raises
`ValueError` before the historical lookup is invoked. -/
def processZScoreOutliers (getHistoricalData : ℚ → ℚ → List (ℚ × PyVal))
    (liveStream : List (ℚ × PyVal)) (now : ℚ) (window : ℤ) (threshold : ℚ)
    (timestampIncrement : ℚ) :
    List (ℚ × ℚ × Bool) × Except PyErr EngineState :=
  if window ≤ 1 then ([], Except.error PyErr.valueError)
  else
    let historicalDataEndDate := now
    let historicalDataStartDate := historicalDataEndDate - ((window : ℚ) - 1) * timestampIncrement
    let historicalEnergyData := getHistoricalData historicalDataStartDate historicalDataEndDate
    processStream window threshold (bootstrap historicalEnergyData) liveStream

/-- The lookup `get_historical_energy_data(start, end, timestamp_increment)`
of `src/energy_data/data.py`.  Its sample values come from
`_get_energy_value`, which combines two sines, timestamp-seeded Gaussian
noise and a constant offset; that float-valued function is abstracted as the
parameter `value`, since only which samples exist and whether their values
pass validation matter here.  `math.ceil(start / inc) * inc` rounds the start
up to the nearest increment multiple, and `range(steps)` is empty when
`steps <= 0`. -/
def getHistoricalEnergyData (value : ℚ → PyVal) (start end_ : ℚ)
    (timestamp_increment : ℚ) : Except PyErr (List (ℚ × PyVal)) :=
  if timestamp_increment ≤ 0 then Except.error PyErr.valueError
  else
    let timestamp : ℚ := (⌈start / timestamp_increment⌉ : ℤ) * timestamp_increment
    let steps : ℤ := ⌊(end_ - timestamp) / timestamp_increment⌋ + 1
    Except.ok ((List.range steps.toNat).map (fun i =>
      (timestamp + timestamp_increment * (i : ℕ), value (timestamp + timestamp_increment * (i : ℕ)))))

/-- The full value domain of the Python validity check, including the
non-finite floats: `float("inf")`, `float("-inf")` and `float("nan")` are
instances of `float`, and IEEE comparison gives `inf < 0 = False`,
`-inf < 0 = True`, `nan < 0 = False`. -/
inductive PyFloat
  | num (x : ℚ)
  | posInf
  | negInf
  | nan
  | other
deriving DecidableEq

/-- Python's `value < 0` on the full value domain (never consulted for
`other`, because `not isinstance(...) or value < 0` short-circuits). -/
def pyLtZero (v : PyFloat) : Bool :=
  match v with
  | PyFloat.num x => decide (x < 0)
  | PyFloat.posInf => false
  | PyFloat.negInf => true
  | PyFloat.nan => false
  | PyFloat.other => false

/-- Python's `isinstance(value, (int, float))` on the full value domain. -/
def pyIsNumber (v : PyFloat) : Bool :=
  match v with
  | PyFloat.other => false
  | _ => true

/-- The source's validity check on the full value domain: a sample is kept
(not skipped by the `continue`) exactly when
`isinstance(value, (int, float)) and not value < 0`. -/
def pyAccepts (v : PyFloat) : Bool :=
  pyIsNumber v && !(pyLtZero v)

/-- Modelled from the spec: the predicate "the value is a finite,
non-negative number" that section 3 of the spec requires of every retained
sample.  Written from the spec's words, to be compared with the code's
check `pyAccepts`. -/
def specFiniteNonNeg (v : PyFloat) : Bool :=
  match v with
  | PyFloat.num x => decide (0 ≤ x)
  | _ => false

/-- Modelled from the spec: the mean of a list of values,
`Σ x / n`, used by the spec's phrase "sample variance of the values
currently held in the window". -/
def specMean (xs : List ℚ) : ℚ :=
  xs.sum / (xs.length : ℚ)

/-- Modelled from the spec: the sample variance `Σ (x - mean)² / (n - 1)`
of the values of a list, the quantity the spec says the engine's
constant-time expression computes. -/
def specSampleVariance (xs : List ℚ) : ℚ :=
  (xs.map (fun x => (x - specMean xs) ^ 2)).sum / ((xs.length : ℚ) - 1)

/-- The accumulator invariant of the engine state: each running total equals
the sum of its deque, and the squared deque holds exactly the squares of the
value deque, position by position. -/
def StateInv (s : EngineState) : Prop :=
  s.rolling_sum = s.window_values.sum ∧
  s.rolling_squared_sum = s.window_squared_values.sum ∧
  s.window_squared_values = s.window_values.map (fun x => x ^ 2)

/-- The states the engine passes through, at the granularity of the source's
compound statements: the initial zeroed state, the state after each bootstrap
iteration, the state after each admission of an accepted live value, and the
state after each completed eviction.  Every point "before/after a push" and
"before/after an eviction" of any run of the program is of this shape. -/
inductive Reachable : EngineState → Prop
  | init : Reachable stateInit
  | boot (s : EngineState) (sample : ℚ × PyVal) :
      Reachable s → Reachable (bootstrapStep s sample)
  | push (s : EngineState) (x : ℚ) (hx : 0 ≤ x) :
      Reachable s → Reachable (pushValue s x)
  | evictStep (s s' : EngineState) :
      Reachable s → evict s = Except.ok s' → Reachable s'

theorem stateInit_StateInv : StateInv stateInit := by
  simp [StateInv, stateInit]

theorem StateInv_pushValue (s : EngineState) (x : ℚ) (h : StateInv s) : StateInv (pushValue s x) := by
  obtain ⟨h1, h2, h3⟩ := h
  refine ⟨?_, ?_, ?_⟩ <;> simp [pushValue, h1, h2, h3]

theorem StateInv_bootstrapStep (s : EngineState) (sample : ℚ × PyVal) (h : StateInv s) :
    StateInv (bootstrapStep s sample) := by
  rcases sample with ⟨t, v⟩
  cases v with
  | num x =>
    by_cases hx : x < 0
    · simpa [bootstrapStep, hx] using h
    · simpa [bootstrapStep, hx] using StateInv_pushValue s x h
  | other => simpa [bootstrapStep] using h

theorem StateInv_evict (s s' : EngineState) (h : StateInv s) (he : evict s = Except.ok s') :
    StateInv s' := by
  obtain ⟨h1, h2, h3⟩ := h
  cases hv : s.window_values with
  | nil => simp [evict, hv] at he
  | cons v vs =>
    cases hw : s.window_squared_values with
    | nil => simp [evict, hv, hw] at he
    | cons w ws =>
      simp only [evict, hv, hw, Except.ok.injEq] at he
      subst he
      rw [hv, hw, List.map_cons, List.cons.injEq] at h3
      refine ⟨?_, ?_, h3.2⟩
      · simp [h1, hv]
      · simp [h2, hw]

theorem StateInv_reachable (s : EngineState) (h : Reachable s) : StateInv s := by
  induction h with
  | init => exact stateInit_StateInv
  | boot s sample _ ih => exact StateInv_bootstrapStep s sample ih
  | push s x _ _ ih => exact StateInv_pushValue s x ih
  | evictStep s s' _ he ih => exact StateInv_evict s s' ih he

theorem pushValue_window_length (s : EngineState) (x : ℚ) :
    (pushValue s x).window_values.length = s.window_values.length + 1 := by
  simp [pushValue]

theorem evict_pushValue_ok (s : EngineState) (x : ℚ) :
    ∃ s', evict (pushValue s x) = Except.ok s' ∧
      s'.window_values.length = s.window_values.length ∧
      s'.window_squared_values.length = s.window_squared_values.length := by
  rcases hv : (pushValue s x).window_values with _ | ⟨v, vs⟩
  · simp [pushValue] at hv
  rcases hw : (pushValue s x).window_squared_values with _ | ⟨w, ws⟩
  · simp [pushValue] at hw
  refine ⟨⟨(pushValue s x).rolling_sum - v, (pushValue s x).rolling_squared_sum - w, vs, ws⟩,
    ?_, ?_, ?_⟩
  · unfold evict
    rw [hv, hw]
  · have h := congrArg List.length hv
    simp [pushValue] at h
    dsimp only
    omega
  · have h := congrArg List.length hw
    simp [pushValue] at h
    dsimp only
    omega

theorem streamStep_ok_length (window : ℤ) (threshold : ℚ) (s s' : EngineState)
    (sample : ℚ × PyVal) (o : Option (ℚ × ℚ × Bool))
    (h : streamStep window threshold s sample = Except.ok (s', o)) :
    s'.window_values.length = s.window_values.length := by
  rcases sample with ⟨t, v⟩
  cases v with
  | other =>
    simp only [streamStep, Except.ok.injEq, Prod.mk.injEq] at h
    rw [h.1]
  | num x =>
    by_cases hx : x < 0
    · simp only [streamStep, if_pos hx, Except.ok.injEq, Prod.mk.injEq] at h
      rw [h.1]
    · obtain ⟨s'', he, hlen, _⟩ := evict_pushValue_ok s x
      by_cases hneg : rollingVariance window (pushValue s x) < 0
      · simp [streamStep, if_neg hx, hneg] at h
      · by_cases hzero : rollingVariance window (pushValue s x) = 0
        · simp [streamStep, if_neg hx, hneg, hzero] at h
        · simp only [streamStep, if_neg hx, if_neg hneg, if_neg hzero, he,
            Except.ok.injEq, Prod.mk.injEq] at h
          rw [← h.1, hlen]

theorem processStream_ok_length (window : ℤ) (threshold : ℚ)
    (live : List (ℚ × PyVal)) (s s' : EngineState) (outs : List (ℚ × ℚ × Bool))
    (h : processStream window threshold s live = (outs, Except.ok s')) :
    s'.window_values.length = s.window_values.length := by
  induction live generalizing s outs with
  | nil =>
    simp only [processStream, Prod.mk.injEq, Except.ok.injEq] at h
    rw [h.2]
  | cons sample rest ih =>
    rw [processStream] at h
    cases hstep : streamStep window threshold s sample with
    | error e => rw [hstep] at h; simp at h
    | ok p =>
      rcases p with ⟨s1, o⟩
      have hlen1 := streamStep_ok_length window threshold s s1 sample o hstep
      cases o with
      | none =>
        rw [hstep] at h
        exact (ih s1 outs h).trans hlen1
      | some out =>
        rw [hstep] at h
        simp only [Prod.mk.injEq] at h
        have : processStream window threshold s1 rest
            = ((processStream window threshold s1 rest).1,
               (processStream window threshold s1 rest).2) := rfl
        have h2 : (processStream window threshold s1 rest).2 = Except.ok s' := h.2
        have := ih s1 (processStream window threshold s1 rest).1 (by rw [← h2])
        exact this.trans hlen1

theorem bootstrap_foldl_length (hist : List (ℚ × PyVal)) (s : EngineState) :
    (hist.foldl bootstrapStep s).window_values.length
      = s.window_values.length + (hist.filter (fun p => accept p.2)).length := by
  induction hist generalizing s with
  | nil => simp
  | cons sample rest ih =>
    rcases sample with ⟨t, v⟩
    cases v with
    | num x =>
      by_cases hx : x < 0
      · simp [List.foldl_cons, bootstrapStep, hx, ih, accept]
      · simp [List.foldl_cons, bootstrapStep, hx, ih, accept, pushValue]
        omega
    | other => simp [List.foldl_cons, bootstrapStep, ih, accept]

theorem bootstrap_window_length (hist : List (ℚ × PyVal)) :
    (bootstrap hist).window_values.length
      = (hist.filter (fun p => accept p.2)).length := by
  have := bootstrap_foldl_length hist stateInit
  simpa [bootstrap, stateInit] using this

theorem isOutlier_iff_sqrt_test (threshold value rolling_mean rolling_variance : ℚ)
    (hvar : 0 < rolling_variance) :
    isOutlier threshold value rolling_mean rolling_variance = true
      ↔ |((value : ℝ) - (rolling_mean : ℝ)) / Real.sqrt ((rolling_variance : ℝ))|
          > (threshold : ℝ) := by
  have hvR : (0 : ℝ) < (rolling_variance : ℝ) := by exact_mod_cast hvar
  have hs : 0 < Real.sqrt (rolling_variance : ℝ) := Real.sqrt_pos.mpr hvR
  rw [abs_div, abs_of_pos hs]
  simp only [isOutlier, decide_eq_true_eq, gt_iff_lt]
  constructor
  · rintro (hneg | hlt)
    · calc (threshold : ℝ) < 0 := by exact_mod_cast hneg
        _ ≤ _ := div_nonneg (abs_nonneg _) (le_of_lt hs)
    · rw [lt_div_iff₀ hs]
      rcases lt_or_le threshold 0 with hth | hth
      · have hthR : (threshold : ℝ) < 0 := by exact_mod_cast hth
        calc (threshold : ℝ) * Real.sqrt (rolling_variance : ℝ)
            < 0 := mul_neg_of_neg_of_pos hthR hs
          _ ≤ |(value : ℝ) - (rolling_mean : ℝ)| := abs_nonneg _
      · have hthR : (0 : ℝ) ≤ (threshold : ℝ) := by exact_mod_cast hth
        have h2 : ((threshold : ℝ) * Real.sqrt (rolling_variance : ℝ)) ^ 2
            < |(value : ℝ) - (rolling_mean : ℝ)| ^ 2 := by
          rw [mul_pow, Real.sq_sqrt (le_of_lt hvR), sq_abs]
          exact_mod_cast hlt
        exact (pow_lt_pow_iff_left₀
          (mul_nonneg hthR (le_of_lt hs)) (abs_nonneg _) two_ne_zero).mp h2
  · intro hgt
    by_cases hth : threshold < 0
    · exact Or.inl hth
    · push_neg at hth
      right
      have hthR : (0 : ℝ) ≤ (threshold : ℝ) := by exact_mod_cast hth
      rw [lt_div_iff₀ hs] at hgt
      have h2 := pow_lt_pow_left₀ hgt (mul_nonneg hthR (le_of_lt hs)) two_ne_zero
      rw [mul_pow, Real.sq_sqrt (le_of_lt hvR), sq_abs] at h2
      exact_mod_cast h2

theorem sum_sq_sub_eq (xs : List ℚ) (m : ℚ) :
    (xs.map (fun x => (x - m) ^ 2)).sum
      = (xs.map (fun x => x ^ 2)).sum - 2 * m * xs.sum + (xs.length : ℚ) * m ^ 2 := by
  induction xs with
  | nil => simp
  | cons a l ih =>
    simp only [List.map_cons, List.sum_cons, List.length_cons, ih]
    push_cast
    ring

theorem floor_sub_ceil_of_not_int (f : ℚ) (h : ((⌈f⌉ : ℤ) : ℚ) ≠ f) :
    ⌊f⌋ - ⌈f⌉ = -1 := by
  have h1 : ⌈f⌉ ≤ ⌊f⌋ + 1 := Int.ceil_le_floor_add_one f
  have h2 : ⌊f⌋ < ⌈f⌉ := by
    have hf : f < ((⌈f⌉ : ℤ) : ℚ) := lt_of_le_of_ne (Int.le_ceil f) (Ne.symm h)
    have := lt_of_le_of_lt (Int.floor_le f) hf
    exact_mod_cast this
  omega

theorem historical_steps_eq (now inc : ℚ) (w : ℤ) (hinc : 0 < inc)
    (hfrac : ((⌈now / inc⌉ : ℤ) : ℚ) ≠ now / inc) :
    ⌊(now - ((⌈(now - ((w : ℚ) - 1) * inc) / inc⌉ : ℤ) : ℚ) * inc) / inc⌋ + 1 = w - 1 := by
  have hne : inc ≠ 0 := ne_of_gt hinc
  have hstart : (now - ((w : ℚ) - 1) * inc) / inc = now / inc - ((w - 1 : ℤ) : ℚ) := by
    push_cast
    field_simp
    ring
  have hceil : ⌈(now - ((w : ℚ) - 1) * inc) / inc⌉ = ⌈now / inc⌉ - (w - 1) := by
    rw [hstart, Int.ceil_sub_int]
  have hT : (now - ((⌈(now - ((w : ℚ) - 1) * inc) / inc⌉ : ℤ) : ℚ) * inc) / inc
      = now / inc - ((⌈now / inc⌉ - (w - 1) : ℤ) : ℚ) := by
    rw [hceil]
    push_cast
    field_simp
    ring
  rw [hT, Int.floor_sub_int]
  have := floor_sub_ceil_of_not_int (now / inc) hfrac
  omega


theorem streamStep_ne_indexError (window : ℤ) (threshold : ℚ) (s : EngineState)
    (sample : ℚ × PyVal) :
    streamStep window threshold s sample ≠ Except.error PyErr.indexError := by
  rcases sample with ⟨t, v⟩
  cases v with
  | other => simp [streamStep]
  | num x =>
    by_cases hx : x < 0
    · simp [streamStep, hx]
    · obtain ⟨s'', he, -, -⟩ := evict_pushValue_ok s x
      by_cases hneg : rollingVariance window (pushValue s x) < 0
      · simp [streamStep, hx, hneg]
      · by_cases hzero : rollingVariance window (pushValue s x) = 0
        · simp [streamStep, hx, hneg, hzero]
        · simp [streamStep, hx, hneg, hzero, he]

theorem processStream_ne_indexError (window : ℤ) (threshold : ℚ) (s : EngineState)
    (live : List (ℚ × PyVal)) :
    (processStream window threshold s live).2 ≠ Except.error PyErr.indexError := by
  induction live generalizing s with
  | nil => simp [processStream]
  | cons sample rest ih =>
    rw [processStream]
    cases hstep : streamStep window threshold s sample with
    | error e =>
      have h1 := streamStep_ne_indexError window threshold s sample
      rw [hstep] at h1
      simpa using h1
    | ok p =>
      rcases p with ⟨s1, o⟩
      cases o with
      | none => exact ih s1
      | some out => simpa using ih s1

/-- C1: the spec requires a zero-variance special case
(`rolling_std == 0` must yield `is_outlier = False` with no division error),
but the code has none: at a reachable decision point where all window values
are equal (`window = 2`, historical lookup returning the single sample value
`1`, live value `1`), the variance expression is exactly `0`, so
`rolling_std = math.sqrt(0) = 0` and the code evaluates
`abs((value - rolling_mean) / rolling_std)`, raising
`ZeroDivisionError: float division by zero` and emitting no decision. -/
theorem zero_variance_run_raises_zero_division :
    processZScoreOutliers (fun _ _ => [((0 : ℚ), PyVal.num 1)]) [((1 : ℚ), PyVal.num 1)]
        1 2 (9/4) 86400
      = ([], Except.error PyErr.zeroDivisionError) := by
  norm_num [processZScoreOutliers, processStream, streamStep, bootstrap, bootstrapStep,
    pushValue, stateInit, rollingMean, rollingVariance, isOutlier, evict]

/-- C2 counterexample: with `window = 2` and a fully valid input sequence
(one valid historical sample, matching the `window - 1` samples the lookup
returns generically, then one valid live sample), the window holds one
value — not `window = 2` values — both immediately after bootstrap and in
the state left after the emitted decision's eviction completed. -/
theorem window_not_full_after_bootstrap_and_evict :
    (bootstrap [((0 : ℚ), PyVal.num 0)]).window_values.length ≠ 2
    ∧ processStream 2 (9/4) (bootstrap [((0 : ℚ), PyVal.num 0)]) [((1 : ℚ), PyVal.num 1)]
        = ([((1 : ℚ), (1 : ℚ), false)], Except.ok ⟨1, 1, [1], [1]⟩)
    ∧ (EngineState.window_values ⟨1, 1, [1], [1]⟩).length ≠ 2 := by
  refine ⟨?_, ?_, ?_⟩
  · norm_num [bootstrap, bootstrapStep, pushValue, stateInit]
  · norm_num [processStream, streamStep, bootstrap, bootstrapStep, pushValue, stateInit,
      rollingMean, rollingVariance, isOutlier, evict]
  · norm_num

/-- C2 (amended): when the historical lookup returns `window - 1` samples
and all of them are valid, the window holds exactly `window - 1` values
immediately after bootstrap and after every completed eviction (each
post-eviction point of a run is the final state of the run over the
corresponding prefix of the live sequence, which the quantification over
`live` covers); it holds `window` values only transiently between a push
and the following eviction. -/
theorem window_holds_window_minus_one (window : ℤ) (threshold : ℚ)
    (hist live : List (ℚ × PyVal)) (outs : List (ℚ × ℚ × Bool)) (s' : EngineState)
    (hvalid : ∀ p ∈ hist, accept p.2 = true)
    (hlen : (hist.length : ℤ) = window - 1)
    (hrun : processStream window threshold (bootstrap hist) live = (outs, Except.ok s')) :
    ((bootstrap hist).window_values.length : ℤ) = window - 1
    ∧ (s'.window_values.length : ℤ) = window - 1 := by
  have hb : (bootstrap hist).window_values.length = hist.length := by
    rw [bootstrap_window_length]
    congr 1
    exact List.filter_eq_self.mpr hvalid
  refine ⟨by rw [hb]; exact hlen, ?_⟩
  rw [processStream_ok_length window threshold live (bootstrap hist) s' outs hrun, hb]
  exact hlen

theorem window_holds_window_minus_one_witness :
    ((bootstrap [((0 : ℚ), PyVal.num 0)]).window_values.length : ℤ) = 2 - 1
    ∧ (((⟨1, 1, [1], [1]⟩ : EngineState)).window_values.length : ℤ) = 2 - 1 :=
  window_holds_window_minus_one 2 (9/4) [((0 : ℚ), PyVal.num 0)] [((1 : ℚ), PyVal.num 1)]
    [((1 : ℚ), (1 : ℚ), false)] ⟨1, 1, [1], [1]⟩
    (by intro p hp; rw [List.mem_singleton] at hp; subst hp; norm_num [accept])
    (by norm_num)
    (by norm_num [processStream, streamStep, bootstrap, bootstrapStep, pushValue, stateInit,
      rollingMean, rollingVariance, isOutlier, evict])

/-- C3: at every point of every run, at the granularity of the source's
compound push and evict statements (the relation `Reachable` covers the
initial state, every bootstrap iteration, every admission of an accepted
value and every completed eviction), `rolling_sum` equals the sum of the
values currently in the window and `rolling_squared_sum` equals the sum of
their squares, in exact arithmetic. -/
theorem accumulators_track_window_sums (s : EngineState) (h : Reachable s) :
    s.rolling_sum = s.window_values.sum
    ∧ s.rolling_squared_sum = (s.window_values.map (fun x => x ^ 2)).sum := by
  obtain ⟨h1, h2, h3⟩ := StateInv_reachable s h
  exact ⟨h1, by rw [h2, h3]⟩

theorem accumulators_track_window_sums_witness :
    (pushValue stateInit 3).rolling_sum = (pushValue stateInit 3).window_values.sum
    ∧ (pushValue stateInit 3).rolling_squared_sum
        = ((pushValue stateInit 3).window_values.map (fun x => x ^ 2)).sum :=
  accumulators_track_window_sums (pushValue stateInit 3)
    (Reachable.push stateInit 3 (by norm_num) Reachable.init)

/-- C7: for `window <= 1` the call fails with `ValueError` for every
historical lookup, live stream, clock value, threshold and increment: the
result does not depend on the lookup (so the failure precedes any lookup
invocation) and the output sequence is empty (no data is processed). -/
theorem window_le_one_fails_with_value_error
    (getHistoricalData : ℚ → ℚ → List (ℚ × PyVal)) (liveStream : List (ℚ × PyVal))
    (now : ℚ) (window : ℤ) (threshold timestampIncrement : ℚ)
    (hw : window ≤ 1) :
    processZScoreOutliers getHistoricalData liveStream now window threshold timestampIncrement
      = ([], Except.error PyErr.valueError) := by
  simp [processZScoreOutliers, hw]

theorem window_le_one_fails_with_value_error_witness :
    processZScoreOutliers (fun _ _ => []) [] 0 1 (9/4) 86400
      = ([], Except.error PyErr.valueError) :=
  window_le_one_fails_with_value_error (fun _ _ => []) [] 0 1 (9/4) 86400 (by norm_num)

/-- C9: every processing cycle appends the new value to both deques before
`popleft` is called, so at eviction time both deques are non-empty from any
starting state — in particular also when the historical lookup yielded no
valid samples and the window was empty before the push — and consequently
no run of the streaming loop ever raises `IndexError`. -/
theorem eviction_always_preceded_by_push :
    (∀ (s : EngineState) (x : ℚ),
      (pushValue s x).window_values ≠ [] ∧ (pushValue s x).window_squared_values ≠ []
      ∧ ∃ s', evict (pushValue s x) = Except.ok s')
    ∧ ∀ (window : ℤ) (threshold : ℚ) (s : EngineState) (live : List (ℚ × PyVal)),
        (processStream window threshold s live).2 ≠ Except.error PyErr.indexError := by
  constructor
  · intro s x
    obtain ⟨s'', he, -, -⟩ := evict_pushValue_ok s x
    exact ⟨by simp [pushValue], by simp [pushValue], s'', he⟩
  · intro window threshold s live
    exact processStream_ne_indexError window threshold s live

/-- C4 counterexample: a value accepted by the validity check for which no
decision is emitted: with `window = 3` and all values equal to `2`, the live
sample `(2, 2)` is accepted and admitted, yet the cycle raises
`ZeroDivisionError` (the variance expression is exactly `0`) instead of
emitting a `(timestamp, value, is_outlier)` item, so the claim's
"for every accepted live sample ... emits" fails at this input. -/
theorem accepted_sample_without_emitted_decision :
    accept (PyVal.num 2) = true
    ∧ processStream 3 (9/4)
        (bootstrap [((0 : ℚ), PyVal.num 2), ((1 : ℚ), PyVal.num 2)])
        [((2 : ℚ), PyVal.num 2)]
      = ([], Except.error PyErr.zeroDivisionError) := by
  refine ⟨rfl, ?_⟩
  norm_num [processStream, streamStep, bootstrap, bootstrapStep, pushValue, stateInit,
    rollingMean, rollingVariance, isOutlier, evict]

/-- C4 (amended): for every accepted live sample whose post-push variance
expression is positive, the cycle computes `rolling_mean` from the sum that
includes the just-admitted value divided by `window`, computes the variance
expression from the post-push accumulators divided by `window - 1`, emits
`(timestamp, value, is_outlier)` with `is_outlier` holding exactly when
`|value - rolling_mean| / sqrt(variance) > threshold`, and only then evicts
the oldest value (the emitted decision depends only on the pre-eviction
state, and the state handed to the next cycle is the evicted one); when the
variance expression is zero or negative the cycle instead raises
(`ZeroDivisionError` or `ValueError`), which is claim C1's code bug. -/
theorem decision_computation_at_positive_variance (window : ℤ) (threshold : ℚ)
    (s : EngineState) (t x : ℚ) (hx : 0 ≤ x)
    (hvar : 0 < rollingVariance window (pushValue s x)) :
    ∃ s'', evict (pushValue s x) = Except.ok s''
    ∧ streamStep window threshold s (t, PyVal.num x)
        = Except.ok (s'', some (t, x,
            isOutlier threshold x (rollingMean window (pushValue s x))
              (rollingVariance window (pushValue s x))))
    ∧ rollingMean window (pushValue s x) = (s.rolling_sum + x) / (window : ℚ)
    ∧ rollingVariance window (pushValue s x)
        = ((window : ℚ) * (rollingMean window (pushValue s x)) ^ 2
            - 2 * rollingMean window (pushValue s x) * (s.rolling_sum + x)
            + (s.rolling_squared_sum + x ^ 2)) / ((window : ℚ) - 1)
    ∧ (isOutlier threshold x (rollingMean window (pushValue s x))
          (rollingVariance window (pushValue s x)) = true
        ↔ |((x : ℝ) - ((rollingMean window (pushValue s x) : ℚ) : ℝ))
              / Real.sqrt (((rollingVariance window (pushValue s x) : ℚ) : ℝ))|
            > (threshold : ℝ)) := by
  obtain ⟨s'', he, -, -⟩ := evict_pushValue_ok s x
  refine ⟨s'', he, ?_, rfl, rfl, isOutlier_iff_sqrt_test threshold x _ _ hvar⟩
  simp only [streamStep]
  rw [if_neg (not_lt.mpr hx), if_neg (not_lt.mpr (le_of_lt hvar)), if_neg (ne_of_gt hvar), he]

theorem decision_computation_at_positive_variance_witness :
    ∃ s'', evict (pushValue (bootstrap [((0 : ℚ), PyVal.num 0)]) 1) = Except.ok s''
    ∧ streamStep 2 (9/4) (bootstrap [((0 : ℚ), PyVal.num 0)]) ((1 : ℚ), PyVal.num 1)
        = Except.ok (s'', some ((1 : ℚ), (1 : ℚ),
            isOutlier (9/4) 1 (rollingMean 2 (pushValue (bootstrap [((0 : ℚ), PyVal.num 0)]) 1))
              (rollingVariance 2 (pushValue (bootstrap [((0 : ℚ), PyVal.num 0)]) 1))))
    ∧ rollingMean 2 (pushValue (bootstrap [((0 : ℚ), PyVal.num 0)]) 1)
        = ((bootstrap [((0 : ℚ), PyVal.num 0)]).rolling_sum + 1) / ((2 : ℤ) : ℚ)
    ∧ rollingVariance 2 (pushValue (bootstrap [((0 : ℚ), PyVal.num 0)]) 1)
        = (((2 : ℤ) : ℚ) * (rollingMean 2 (pushValue (bootstrap [((0 : ℚ), PyVal.num 0)]) 1)) ^ 2
            - 2 * rollingMean 2 (pushValue (bootstrap [((0 : ℚ), PyVal.num 0)]) 1)
                * ((bootstrap [((0 : ℚ), PyVal.num 0)]).rolling_sum + 1)
            + ((bootstrap [((0 : ℚ), PyVal.num 0)]).rolling_squared_sum + 1 ^ 2))
          / (((2 : ℤ) : ℚ) - 1)
    ∧ (isOutlier (9/4) 1 (rollingMean 2 (pushValue (bootstrap [((0 : ℚ), PyVal.num 0)]) 1))
          (rollingVariance 2 (pushValue (bootstrap [((0 : ℚ), PyVal.num 0)]) 1)) = true
        ↔ |(((1 : ℚ) : ℝ) - ((rollingMean 2 (pushValue (bootstrap [((0 : ℚ), PyVal.num 0)]) 1) : ℚ) : ℝ))
              / Real.sqrt (((rollingVariance 2 (pushValue (bootstrap [((0 : ℚ), PyVal.num 0)]) 1) : ℚ) : ℝ))|
            > (((9 : ℚ)/4 : ℚ) : ℝ)) :=
  decision_computation_at_positive_variance 2 (9/4) (bootstrap [((0 : ℚ), PyVal.num 0)]) 1 1
    (by norm_num)
    (by norm_num [rollingVariance, rollingMean, pushValue, bootstrap, bootstrapStep, stateInit])

/-- C5 counterexample: the source's validity check is only
`isinstance(value, (int, float)) and not value < 0`, so the non-finite
floats `float("inf")` and `float("nan")` — which are instances of `float`
and for which `value < 0` is IEEE-false — pass it and are admitted to the
window, although they are not finite non-negative numbers; the claim's
"every sample whose value is not a finite non-negative number is discarded"
is therefore false at these inputs. -/
theorem nonfinite_value_passes_validation :
    pyAccepts PyFloat.posInf = true ∧ specFiniteNonNeg PyFloat.posInf = false
    ∧ pyAccepts PyFloat.nan = true ∧ specFiniteNonNeg PyFloat.nan = false
    ∧ pyAccepts PyFloat.negInf = false := by
  exact ⟨rfl, rfl, rfl, rfl, rfl⟩

/-- C5 (amended): every sample, historical or live, whose value is not an
`int`/`float` instance or is a number less than zero is discarded: it leaves
`rolling_sum`, `rolling_squared_sum` and both deques unchanged, produces no
output item, and processing continues with the next sample; on finite
numeric and non-numeric values the engine's check `accept` agrees with the
full-domain check `pyAccepts` (the two checks differ only on the non-finite
floats of the counterexample, which are admitted, not discarded). -/
theorem rejected_sample_leaves_state_unchanged (window : ℤ) (threshold : ℚ)
    (s : EngineState) (t : ℚ) (v : PyVal) (hv : accept v = false) :
    bootstrapStep s (t, v) = s
    ∧ streamStep window threshold s (t, v) = Except.ok (s, none)
    ∧ (∀ x : ℚ, accept (PyVal.num x) = pyAccepts (PyFloat.num x))
    ∧ accept PyVal.other = pyAccepts PyFloat.other := by
  cases v with
  | num x =>
    have hx : x < 0 := by
      simpa [accept] using hv
    exact ⟨by simp [bootstrapStep, hx], by simp [streamStep, hx], fun y => rfl, rfl⟩
  | other => exact ⟨rfl, rfl, fun y => rfl, rfl⟩

theorem rejected_sample_leaves_state_unchanged_witness :
    bootstrapStep stateInit ((0 : ℚ), PyVal.other) = stateInit
    ∧ streamStep 2 (9/4) stateInit ((0 : ℚ), PyVal.other) = Except.ok (stateInit, none)
    ∧ (∀ x : ℚ, accept (PyVal.num x) = pyAccepts (PyFloat.num x))
    ∧ accept PyVal.other = pyAccepts PyFloat.other :=
  rejected_sample_leaves_state_unchanged 2 (9/4) stateInit 0 PyVal.other rfl

/-- C8 counterexample: a reachable decision point at which the engine's
constant-time variance expression does not equal the sample variance of the
values currently held in the window: with `window = 3`, the lookup returning
two samples of which one is invalid, bootstrap retains only `[0]`; at the
decision on live value `1` the window holds `[0, 1]`, the engine computes
`1/3`, but the sample variance of `[0, 1]` is `1/2` — the decision is
nevertheless emitted using `1/3`. -/
theorem variance_neq_sample_variance_after_discard :
    rollingVariance 3
        (pushValue (bootstrap [((0 : ℚ), PyVal.num 0), ((1 : ℚ), PyVal.other)]) 1) = 1/3
    ∧ specSampleVariance
        (pushValue (bootstrap [((0 : ℚ), PyVal.num 0), ((1 : ℚ), PyVal.other)]) 1).window_values
      = 1/2
    ∧ streamStep 3 (9/4) (bootstrap [((0 : ℚ), PyVal.num 0), ((1 : ℚ), PyVal.other)])
        ((2 : ℚ), PyVal.num 1)
      = Except.ok (⟨1, 1, [1], [1]⟩, some (2, 1, false))
    ∧ ((1 : ℚ)/3) ≠ 1/2 := by
  refine ⟨?_, ?_, ?_, by norm_num⟩ <;>
    norm_num [rollingVariance, rollingMean, pushValue, bootstrap, bootstrapStep, stateInit,
      specSampleVariance, specMean, streamStep, isOutlier, evict]

/-- C8 (amended): for every state whose accumulators hold the sum and sum of
squares of the window's values and whose window holds exactly `window`
values (which, by C3 and C2, is every decision point at which no bootstrap
sample was discarded), the engine's constant-time variance expression
`(window * mean² - 2 * mean * sum + squared_sum) / (window - 1)` equals the
sample variance `Σ (x - mean)² / (window - 1)` of those values, in exact
arithmetic. -/
theorem rolling_variance_eq_sample_variance_of_full_window (window : ℤ) (s : EngineState)
    (h1 : s.rolling_sum = s.window_values.sum)
    (h2 : s.rolling_squared_sum = (s.window_values.map (fun x => x ^ 2)).sum)
    (hlen : (s.window_values.length : ℤ) = window) :
    rollingVariance window s = specSampleVariance s.window_values := by
  have hw : ((window : ℤ) : ℚ) = (s.window_values.length : ℚ) := by exact_mod_cast hlen.symm
  simp only [rollingVariance, rollingMean, specSampleVariance, specMean, h1, h2, hw,
    sum_sq_sub_eq]
  ring

theorem rolling_variance_eq_sample_variance_of_full_window_witness :
    rollingVariance 2 ⟨1, 1, [0, 1], [0, 1]⟩ = specSampleVariance [0, 1] :=
  rolling_variance_eq_sample_variance_of_full_window 2 ⟨1, 1, [0, 1], [0, 1]⟩
    (by norm_num) (by norm_num) (by norm_num)

/-- C10: the statistics divisors are the constant parameters `window` and
`window - 1` regardless of how many values the window actually holds: when
the historical lookup returned `window - 1` samples of which `k` were
discarded as invalid, the window at every subsequent decision point (the
post-push state of any later cycle, after any successful run over any live
prefix) holds only `window - k` values, yet the mean divides the
accumulators by `window` and the variance expression divides by
`window - 1`; no re-validation, abort or compensation occurs. -/
theorem statistics_divisors_fixed_after_invalid_discards (window : ℤ) (threshold : ℚ)
    (hist live : List (ℚ × PyVal)) (k : ℕ) (outs : List (ℚ × ℚ × Bool)) (s' : EngineState)
    (x : ℚ)
    (hlen : (hist.length : ℤ) = window - 1)
    (hk : k = (hist.filter (fun p => !(accept p.2))).length)
    (hrun : processStream window threshold (bootstrap hist) live = (outs, Except.ok s'))
    (_hx : 0 ≤ x) :
    ((pushValue s' x).window_values.length : ℤ) = window - k
    ∧ rollingMean window (pushValue s' x) = (pushValue s' x).rolling_sum / (window : ℚ)
    ∧ rollingVariance window (pushValue s' x)
        = ((window : ℚ) * (rollingMean window (pushValue s' x)) ^ 2
            - 2 * rollingMean window (pushValue s' x) * (pushValue s' x).rolling_sum
            + (pushValue s' x).rolling_squared_sum) / ((window : ℚ) - 1) := by
  refine ⟨?_, rfl, rfl⟩
  have hsplit := List.length_eq_length_filter_add (l := hist) (fun p => accept p.2)
  have hb := bootstrap_window_length hist
  have hs := processStream_ok_length window threshold live (bootstrap hist) s' outs hrun
  rw [pushValue_window_length, hs, hb]
  have hk' : k = (hist.filter (fun p => !(accept p.2))).length := hk
  push_cast
  push_cast at hsplit hk' hlen
  omega

theorem statistics_divisors_fixed_after_invalid_discards_witness :
    ((pushValue (⟨1, 1, [1], [1]⟩ : EngineState) 2).window_values.length : ℤ) = 3 - (1 : ℕ)
    ∧ rollingMean 3 (pushValue (⟨1, 1, [1], [1]⟩ : EngineState) 2)
        = (pushValue (⟨1, 1, [1], [1]⟩ : EngineState) 2).rolling_sum / ((3 : ℤ) : ℚ)
    ∧ rollingVariance 3 (pushValue (⟨1, 1, [1], [1]⟩ : EngineState) 2)
        = (((3 : ℤ) : ℚ) * (rollingMean 3 (pushValue (⟨1, 1, [1], [1]⟩ : EngineState) 2)) ^ 2
            - 2 * rollingMean 3 (pushValue (⟨1, 1, [1], [1]⟩ : EngineState) 2)
                * (pushValue (⟨1, 1, [1], [1]⟩ : EngineState) 2).rolling_sum
            + (pushValue (⟨1, 1, [1], [1]⟩ : EngineState) 2).rolling_squared_sum)
          / (((3 : ℤ) : ℚ) - 1) :=
  statistics_divisors_fixed_after_invalid_discards 3 (9/4)
    [((0 : ℚ), PyVal.num 0), ((1 : ℚ), PyVal.other)] [((2 : ℚ), PyVal.num 1)] 1
    [((2 : ℚ), (1 : ℚ), false)] ⟨1, 1, [1], [1]⟩ 2
    (by norm_num) rfl
    (by norm_num [processStream, streamStep, bootstrap, bootstrapStep, pushValue, stateInit,
      rollingMean, rollingVariance, isOutlier, evict])
    (by norm_num)

/-- C6 counterexample: when "now" is an exact multiple of the increment, the
rounded-up start coincides with the range start and the lookup returns
`window` samples rather than `window - 1`: for `window = 2`, `now = 0`,
`increment = 1` the requested range is `[-1, 0]` and
`get_historical_energy_data` returns the two samples at `-1` and `0`, so the
initial window (all samples being valid) holds `2` entries, not `1`. -/
theorem historical_count_at_exact_multiple :
    getHistoricalEnergyData (fun _ => PyVal.num 1) ((0 : ℚ) - ((2 : ℚ) - 1) * 1) 0 1
      = Except.ok [((-1 : ℚ), PyVal.num 1), ((0 : ℚ), PyVal.num 1)]
    ∧ (bootstrap [((-1 : ℚ), PyVal.num 1), ((0 : ℚ), PyVal.num 1)]).window_values.length
        ≠ 2 - 1 := by
  have hc : ⌈((0 : ℚ) - ((2 : ℚ) - 1) * 1) / 1⌉ = (-1 : ℤ) := by
    rw [show ((0 : ℚ) - ((2 : ℚ) - 1) * 1) / 1 = ((-1 : ℤ) : ℚ) by norm_num, Int.ceil_intCast]
  constructor
  · rw [getHistoricalEnergyData, if_neg (by norm_num : ¬ (1 : ℚ) ≤ 0)]
    rw [hc]
    have hr : List.range (Int.toNat 2) = [0, 1] := rfl
    norm_num [hr, List.flatMap_cons, List.flatMap_nil]
  · norm_num [bootstrap, bootstrapStep, pushValue, stateInit]

/-- C6 (amended): for every `window >= 2`, positive increment, and a clock
value `now` that is not an exact multiple of the increment (the generic case
for `time.time()`; the counterexample shows that at the exact-multiple
boundary the lookup returns `window` samples instead), the bootstrap invokes
the historical lookup on exactly the range
`[now - (window - 1) * increment, now]` (the last conjunct holds for every
lookup `g`, exhibiting the single lookup call and its arguments),
`get_historical_energy_data` returns exactly `window - 1` samples over that
range, and when all returned samples are valid the initial window holds
exactly `window - 1` entries. -/
theorem bootstrap_range_and_count (value : ℚ → PyVal) (window : ℤ) (now inc threshold : ℚ)
    (hw : 2 ≤ window) (hinc : 0 < inc)
    (hfrac : ((⌈now / inc⌉ : ℤ) : ℚ) ≠ now / inc)
    (hvalid : ∀ t, accept (value t) = true) :
    ∃ l, getHistoricalEnergyData value (now - ((window : ℚ) - 1) * inc) now inc = Except.ok l
    ∧ (l.length : ℤ) = window - 1
    ∧ ((bootstrap l).window_values.length : ℤ) = window - 1
    ∧ ∀ (g : ℚ → ℚ → List (ℚ × PyVal)) (live : List (ℚ × PyVal)),
        processZScoreOutliers g live now window threshold inc
          = processStream window threshold
              (bootstrap (g (now - ((window : ℚ) - 1) * inc) now)) live := by
  have hne : ¬ inc ≤ 0 := not_le.mpr hinc
  have hsteps := historical_steps_eq now inc window hinc hfrac
  rw [getHistoricalEnergyData, if_neg hne]
  refine ⟨_, rfl, ?_, ?_, ?_⟩
  · simp only [List.length_map, List.length_range]
    rw [hsteps]
    refine Int.toNat_of_nonneg ?_
    omega
  · rw [bootstrap_window_length, List.filter_eq_self.mpr ?_]
    · simp only [List.length_map, List.length_range]
      rw [hsteps]
      refine Int.toNat_of_nonneg ?_
      omega
    · intro p hp
      simp only [List.mem_map] at hp
      obtain ⟨i, -, rfl⟩ := hp
      exact hvalid _
  · intro g live
    rw [processZScoreOutliers, if_neg (by omega : ¬ window ≤ 1)]

theorem bootstrap_range_and_count_witness :
    ∃ l, getHistoricalEnergyData (fun _ => PyVal.num 1)
          ((1/2 : ℚ) - (((2 : ℤ) : ℚ) - 1) * 1) (1/2) 1 = Except.ok l
    ∧ (l.length : ℤ) = 2 - 1
    ∧ ((bootstrap l).window_values.length : ℤ) = 2 - 1
    ∧ ∀ (g : ℚ → ℚ → List (ℚ × PyVal)) (live : List (ℚ × PyVal)),
        processZScoreOutliers g live (1/2) 2 (9/4) 1
          = processStream 2 (9/4)
              (bootstrap (g ((1/2 : ℚ) - (((2 : ℤ) : ℚ) - 1) * 1) (1/2))) live :=
  bootstrap_range_and_count (fun _ => PyVal.num 1) 2 (1/2) 1 (9/4) (le_refl 2)
    one_pos
    (by
      rw [div_one, show ⌈(1/2 : ℚ)⌉ = (1 : ℤ) by rw [Int.ceil_eq_iff]; norm_num]
      norm_num)
    (fun t => rfl)
